import Mathlib

/-!
Verification development for the deployment orchestrator.

The embedding models the orchestrator core of the repository:

* `DeployService.deploy`, `DeployService.findAvailablePort`,
  `DeployService.removeDeployment` (src/deploy/deploy.service.ts);
* `NginxService.createProxyConfig`, `NginxService.removeProxyConfig`,
  `NginxService.listProxyConfigs` (src/nginx/nginx.service.ts);
* `getNginxConfig` (the nginx template module).

Strings are modelled as `List Char`.  The external world (the container
runtime, the filesystem holding the proxy-config directory, the reload
subprocess) is modelled by explicit oracle records whose boolean fields say
which external calls succeed; the functions return a result, the new
filesystem state, and a trace of the external effects they performed, in
program order.  Machine numbers are `Nat` (ports and sizes in the source are
plain non-negative JS numbers in all reachable states).  JS
`Math.floor(Math.random() * (max - min + 1) + min)` is modelled by drawing a
natural number `r` from an oracle-supplied stream and taking
`min + r % (max + 1 - min)`, which ranges over exactly the same candidates.
-/

set_option maxRecDepth 100000

namespace Orchestrator

/-- Character list of a string literal. -/
def str (s : String) : List Char := s.toList

/-- Character class of the subdomain regex `[a-z0-9-]`
(nginx.service.ts line 31). -/
def subChar (c : Char) : Bool :=
  ('a' ≤ c && c ≤ 'z') || ('0' ≤ c && c ≤ '9') || c == '-'

/-- Subdomain validation `!subdomain || !/^[a-z0-9-]+$/.test(subdomain)`:
valid iff non-empty and every character is lowercase alphanumeric or hyphen. -/
def validSubdomain (s : List Char) : Bool :=
  !s.isEmpty && s.all subChar

/-- Port validation (nginx.service.ts line 38): integer in `[1, 65535]`
(integrality is built into the `Nat` embedding). -/
def validPort (p : ℕ) : Bool :=
  decide (1 ≤ p) && decide (p ≤ 65535)

/-- Helper for decimal rendering: peels least-significant digits into the
accumulator.  The fuel argument only forces (structural, kernel-reducible)
termination; `natToChars` supplies enough fuel. -/
def natToCharsAux : ℕ → ℕ → List Char → List Char
  | 0, _, acc => acc
  | fuel + 1, n, acc =>
    if n < 10 then Nat.digitChar n :: acc
    else natToCharsAux fuel (n / 10) (Nat.digitChar (n % 10) :: acc)

/-- Decimal numeral of `n`, most significant digit first — the string JS
produces when a number is interpolated into a template literal. -/
def natToChars (n : ℕ) : List Char := natToCharsAux (n + 1) n []

/-- Numeric value of a decimal digit character. -/
def digitVal (c : Char) : ℕ := c.toNat - 48

/-- Value of a digit string, as computed by `parseInt(ds, 10)` on a string of
decimal digits. -/
def charsToNat (ds : List Char) : ℕ :=
  ds.foldl (fun a c => a * 10 + digitVal c) 0

/- ----------------------------------------------------------------
   The nginx virtual-host template (nginx-template.ts, getNginxConfig).
   The template literal is the concatenation of three fixed chunks with
   the subdomain and the port interpolated between them.  `\x7b`/`\x7d`
   denote the literal braces and `\x27` the literal apostrophes of the
   source text.
   ---------------------------------------------------------------- -/

/-- Template text before the `${subdomain}` interpolation. -/
def tplHead : List Char :=
  str "\nserver \x7b\n    listen 80;\n    server_name "

/-- Template text between the `${subdomain}` and `${port}` interpolations. -/
def tplMid : List Char :=
  str ".boogiepop.cloud;\n\n    location / \x7b\n        proxy_pass http://localhost:"

/-- Template text after the `${port}` interpolation. -/
def tplTail : List Char :=
  str ";\n        proxy_http_version 1.1;\n        proxy_set_header Upgrade $http_upgrade;\n        proxy_set_header Connection \x27upgrade\x27;\n        proxy_set_header Host $host;\n        proxy_cache_bypass $http_upgrade;\n    \x7d\n\x7d\n"

/-- Rendered nginx config for a subdomain and port (getNginxConfig). -/
def getNginxConfig (s : List Char) (p : ℕ) : List Char :=
  tplHead ++ s ++ tplMid ++ natToChars p ++ tplTail

/-- The fixed routing-directive pattern of the listing regex
`/proxy_pass http:\/\/localhost:(\d+)/`. -/
def portPat : List Char := str "proxy_pass http://localhost:"

/-- First-match semantics of `content.match(/proxy_pass http:\/\/localhost:(\d+)/)`
followed by `parseInt(match[1], 10)`: scan left to right for the first
position where the literal pattern is followed by at least one digit, and
return the value of the maximal digit run there. -/
def matchPortDirective : List Char → Option ℕ
  | [] => none
  | c :: cs =>
    if portPat.isPrefixOf (c :: cs) then
      let ds := ((c :: cs).drop portPat.length).takeWhile (fun d => d.isDigit)
      if ds.isEmpty then matchPortDirective cs else some (charsToNat ds)
    else matchPortDirective cs

/-- Split a list at the first occurrence of `pat`, returning the part before
the occurrence and the part after it (none if `pat` does not occur). -/
def splitAtFirst (pat : List Char) : List Char → Option (List Char × List Char)
  | [] => if pat.isEmpty then some ([], []) else none
  | c :: cs =>
    if pat.isPrefixOf (c :: cs) then some ([], (c :: cs).drop pat.length)
    else
      match splitAtFirst pat cs with
      | some pr => some (c :: pr.1, pr.2)
      | none => none

/-- JS `l.replace(pat, repl)` for plain-string patterns: replace the first
occurrence of `pat`, if any. -/
def replaceFirst (pat repl l : List Char) : List Char :=
  match splitAtFirst pat l with
  | some pr => pr.1 ++ repl ++ pr.2
  | none => l

/- ----------------------------------------------------------------
   Filesystem model: the contents of the configured nginx config
   directory, as an association list of (file name, file content).
   `Option Fs` distinguishes "directory absent" (`none`) from an
   existing (possibly empty) directory.
   ---------------------------------------------------------------- -/

/-- Contents of the nginx config directory. -/
abbrev Fs := List (List Char × List Char)

/-- `fs.writeFileSync`: create the file or overwrite an existing one. -/
def fsWrite : Fs → List Char → List Char → Fs
  | [], n, c => [(n, c)]
  | (m, d) :: fs, n, c =>
    if m = n then (n, c) :: fs else (m, d) :: fsWrite fs n c

/-- Read a file's content (`none` if absent, as reported by `existsSync`). -/
def fsGet : Fs → List Char → Option (List Char)
  | [], _ => none
  | (m, d) :: fs, n => if m = n then some d else fsGet fs n

/-- `fs.unlinkSync`: remove the file. -/
def fsDelete : Fs → List Char → Fs
  | [], _ => []
  | (m, d) :: fs, n => if m = n then fs else (m, d) :: fsDelete fs n

/-- File lookup through the optional directory. -/
def fsGetOpt (st : Option Fs) (n : List Char) : Option (List Char) :=
  match st with
  | none => none
  | some fs => fsGet fs n

/- ----------------------------------------------------------------
   External effects, in program order, as performed by the orchestrator.
   ---------------------------------------------------------------- -/

/-- Container-creation options passed to `docker.createContainer`
(deploy.service.ts lines 156-170): name, the single port binding
hostPort→internalPort, the memory and swap caps in bytes, and the restart
policy. -/
structure CreateOpts where
  name : List Char
  internalPort : ℕ
  hostPort : ℕ
  memoryBytes : ℕ
  memorySwapBytes : ℕ
  restartPolicy : List Char
deriving DecidableEq, Repr

/-- Trace of external effects.  Runtime events record the call being made;
filesystem events (`mkConfigDir`, `writeConfigFile`, `deleteConfigFile`)
record the effect actually taking place, and `reloadNginx` records the
reload subprocess being invoked together with its outcome. -/
inductive Event
  | ping
  | inspectExisting
  | stopExisting
  | removeExisting
  | pullImage
  | listContainers
  | createContainer (opts : CreateOpts)
  | startContainer
  | mkConfigDir
  | writeConfigFile (name content : List Char)
  | reloadNginx (ok : Bool)
  | inspectTarget
  | stopTarget
  | removeTarget
  | deleteConfigFile (name : List Char)
deriving DecidableEq, Repr

/-- Does the trace contain a successful proxy-config file write? -/
def isConfigWrite : Event → Bool
  | Event.writeConfigFile _ _ => true
  | _ => false

/-- Is the event the container-start call? -/
def isStart : Event → Bool
  | Event.startContainer => true
  | _ => false

/-- True iff some proxy-config file write occurs in the trace. -/
def hasConfigWrite (evs : List Event) : Bool := evs.any isConfigWrite

/-- True iff no proxy-config write occurs before the first container start:
scanning left to right, a write seen before any start refutes it. -/
def noWriteBeforeStart : List Event → Bool
  | [] => true
  | e :: es =>
    if isConfigWrite e then false
    else if isStart e then true
    else noWriteBeforeStart es

/- ----------------------------------------------------------------
   NginxService
   ---------------------------------------------------------------- -/

/-- Errors thrown by the nginx service (plain `Error`s in the source). -/
inductive NErr
  | invalidSubdomain (s : List Char)
  | invalidPort (p : ℕ)
  | writeFailed
  | configMissing (s : List Char)
deriving DecidableEq, Repr

/-- Success value of `createProxyConfig` (its returned object, minus the
constant `success`/`message` fields). -/
structure NginxRes where
  subdomain : List Char
  port : ℕ
  filePath : List Char
deriving DecidableEq, Repr

/-- Outcome of `createProxyConfig`: result, resulting directory state, and
effect trace. -/
structure CPCOut where
  res : Except NErr NginxRes
  fs : Option Fs
  events : List Event

/-- `NginxService.createProxyConfig(subdomain, containerPort)`.
Order as in the source: validate the subdomain, validate the port (both
before touching the filesystem), render the template, create the directory
if absent, write `<subdomain>.conf`, then invoke `nginx -s reload`; a reload
failure is caught, logged and does not affect the returned result, while a
write failure propagates (after the directory was already ensured).
`fsOk` says whether the write call succeeds, `reloadOk` whether the reload
subprocess succeeds. -/
def createProxyConfig (st : Option Fs) (s : List Char) (p : ℕ)
    (fsOk reloadOk : Bool) : CPCOut :=
  if validSubdomain s = false then
    ⟨Except.error (NErr.invalidSubdomain s), st, []⟩
  else if validPort p = false then
    ⟨Except.error (NErr.invalidPort p), st, []⟩
  else
    let content := getNginxConfig s p
    let fname := s ++ str ".conf"
    let dirEvents : List Event :=
      match st with
      | none => [Event.mkConfigDir]
      | some _ => []
    let fs0 : Fs :=
      match st with
      | none => []
      | some fs => fs
    if fsOk = false then
      ⟨Except.error NErr.writeFailed, some fs0, dirEvents⟩
    else
      ⟨Except.ok
          { subdomain := s ++ str ".boogiepop.cloud"
            port := p
            filePath := fname },
        some (fsWrite fs0 fname content),
        dirEvents ++ [Event.writeConfigFile fname content, Event.reloadNginx reloadOk]⟩

/-- Success value of `removeProxyConfig`. -/
structure RemoveCfgRes where
  subdomain : List Char
deriving DecidableEq, Repr

/-- Outcome of `removeProxyConfig`. -/
structure RPCOut where
  res : Except NErr RemoveCfgRes
  fs : Option Fs
  events : List Event

/-- `NginxService.removeProxyConfig(subdomain)`: if `<subdomain>.conf` does
not exist (including when the whole directory is absent) throw; otherwise
unlink it and best-effort reload. -/
def removeProxyConfig (st : Option Fs) (s : List Char) (reloadOk : Bool) : RPCOut :=
  let fname := s ++ str ".conf"
  match st with
  | none => ⟨Except.error (NErr.configMissing s), none, []⟩
  | some fs =>
    match fsGet fs fname with
    | none => ⟨Except.error (NErr.configMissing s), some fs, []⟩
    | some _ =>
      ⟨Except.ok { subdomain := s ++ str ".boogiepop.cloud" },
        some (fsDelete fs fname),
        [Event.deleteConfigFile fname, Event.reloadNginx reloadOk]⟩

/-- One entry of the `listProxyConfigs` result. -/
structure ProxyEntry where
  subdomain : List Char
  port : Option ℕ
  filePath : List Char
deriving DecidableEq, Repr

/-- `NginxService.listProxyConfigs()`: an absent directory yields `[]`;
otherwise every `*.conf` file is parsed back into a
`{subdomain, port, filePath}` entry, the port extracted by the routing
directive regex and the subdomain obtained by `file.replace('.conf', '')`. -/
def listProxyConfigs (st : Option Fs) : List ProxyEntry :=
  match st with
  | none => []
  | some fs =>
    (fs.filter (fun f => (str ".conf").isSuffixOf f.1)).map (fun f =>
      { subdomain := replaceFirst (str ".conf") [] f.1 ++ str ".boogiepop.cloud"
        port := matchPortDirective f.2
        filePath := f.1 })

/- ----------------------------------------------------------------
   Port allocator (DeployService.findAvailablePort)
   ---------------------------------------------------------------- -/

/-- Runtime-reported port binding of a container (PublicPort is optional in
the listing payload; a JS value of 0 is falsy and therefore also skipped by
the `port.PublicPort && ...` guard, hence the `p ≠ 0` conjunct). -/
structure PortInfo where
  publicPort : Option ℕ
deriving DecidableEq, Repr

/-- A container as reported by `docker.listContainers({all: true})`, reduced
to the fields the allocator reads. -/
structure Container where
  ports : List PortInfo
deriving DecidableEq, Repr

/-- Ports in use: every publicly bound host port of any listed container
(running or stopped) that falls within `[mn, mx]`. -/
def usedPorts (cs : List Container) (mn mx : ℕ) : List ℕ :=
  cs.foldr
    (fun c acc =>
      c.ports.foldr
        (fun po acc2 =>
          match po.publicPort with
          | some p => if p ≠ 0 ∧ mn ≤ p ∧ p ≤ mx then p :: acc2 else acc2
          | none => acc2)
        acc)
    []

/-- The random-probe loop: draw candidates `mn + r % (mx + 1 - mn)` from the
probe stream and accept the first one not in use. -/
def randomPhase (used : List ℕ) (mn mx : ℕ) : List ℕ → Option ℕ
  | [] => none
  | r :: rs =>
    let cand := mn + r % (mx + 1 - mn)
    if cand ∈ used then randomPhase used mn mx rs else some cand

/-- The sequential fallback scan: first port of `mn, mn+1, ..., mx` not in
use. -/
def seqScan (used : List ℕ) (mn mx : ℕ) : Option ℕ :=
  (List.range' mn (mx + 1 - mn)).find? (fun p => decide (p ∉ used))

/-- Outcome of the body of `findAvailablePort`'s `try` block after a
successful container listing. -/
inductive TryPortResult
  | found (p : ℕ)
  | exhausted (mn mx : ℕ)
deriving DecidableEq, Repr

/-- Body of the `try` block of `findAvailablePort`, given a successful
listing: up to `maxAttempts = 100` random probes, then the sequential scan,
then the exhaustion `BadRequestException` naming the range. -/
def tryFindPort (used : List ℕ) (mn mx : ℕ) (probes : List ℕ) : TryPortResult :=
  match randomPhase used mn mx (probes.take 100) with
  | some p => TryPortResult.found p
  | none =>
    match seqScan used mn mx with
    | some p => TryPortResult.found p
    | none => TryPortResult.exhausted mn mx

/-- `DeployService.findAvailablePort(min, max)`.  `listing = none` models
`docker.listContainers` itself throwing.  Note the control flow of the
source: the exhaustion `BadRequestException` is thrown *inside* the `try`
block, so the function's own `catch` also intercepts it and returns a single
unchecked random candidate — exactly as it does when the listing fails.
The function therefore never propagates an error. -/
def findAvailablePort (listing : Option (List Container)) (mn mx : ℕ)
    (probes : List ℕ) (rand : ℕ) : ℕ :=
  match listing with
  | none => mn + rand % (mx + 1 - mn)
  | some cs =>
    match tryFindPort (usedPorts cs mn mx) mn mx probes with
    | TryPortResult.found p => p
    | TryPortResult.exhausted _ _ => mn + rand % (mx + 1 - mn)

/- ----------------------------------------------------------------
   DeployService.deploy
   ---------------------------------------------------------------- -/

/-- Outcome of the ensure-absent teardown of `container-<subdomain>` at the
start of `deploy` (lines 88-104).  Every error raised inside this step —
a non-404 inspect error, a stop error, a remove error — is caught and only
logged, and the deploy continues; a 404 (`absent`) is the expected case. -/
inductive Teardown
  | absent
  | present (running : Bool)
  | inspectErr
  | stopErr
  | removeErr (running : Bool)
deriving DecidableEq, Repr

/-- Runtime calls made during the teardown step. -/
def teardownEvents : Teardown → List Event
  | Teardown.absent => [Event.inspectExisting]
  | Teardown.present true =>
    [Event.inspectExisting, Event.stopExisting, Event.removeExisting]
  | Teardown.present false => [Event.inspectExisting, Event.removeExisting]
  | Teardown.inspectErr => [Event.inspectExisting]
  | Teardown.stopErr => [Event.inspectExisting, Event.stopExisting]
  | Teardown.removeErr true =>
    [Event.inspectExisting, Event.stopExisting, Event.removeExisting]
  | Teardown.removeErr false => [Event.inspectExisting, Event.removeExisting]

/-- Did some call inside the teardown step fail (and get swallowed)? -/
def teardownFailed : Teardown → Bool
  | Teardown.inspectErr => true
  | Teardown.stopErr => true
  | Teardown.removeErr _ => true
  | _ => false

/-- Errors of `deploy`/`removeDeployment` (all surfaced as
`BadRequestException`s or rethrown errors in the source). -/
inductive DErr
  | dockerUnreachable
  | pullFailed
  | createFailed
  | startFailed
  | nginx (e : NErr)
  | notFoundDeployment (s : List Char)
deriving DecidableEq, Repr

/-- Success value of `deploy`. -/
structure DeployRes where
  url : List Char
  containerName : List Char
  hostPort : ℕ
  internalPort : ℕ
  imageName : List Char
deriving DecidableEq, Repr

/-- Outcome of `deploy`: result, resulting nginx directory state, and the
trace of external effects in program order. -/
structure DeployOut where
  res : Except DErr DeployRes
  nginx : Option Fs
  events : List Event

/-- Environment oracle for one `deploy` call: which runtime calls succeed,
what the container listing reports, the random stream, the configured
memory limit (`CONTAINER_MEMORY_LIMIT_MB`), and the nginx-side oracle. -/
structure World where
  pingOk : Bool
  teardown : Teardown
  pullOk : Bool
  listing : Option (List Container)
  probes : List ℕ
  fallbackRand : ℕ
  createOk : Bool
  startOk : Bool
  memCfg : Option ℕ
  fsOk : Bool
  reloadOk : Bool
  nginx : Option Fs

/-- Memory limit in MB: `configService.get('CONTAINER_MEMORY_LIMIT_MB') || 256`
(JS `||`: an unset variable and a configured 0 both fall back to 256). -/
def memLimitMB (cfg : Option ℕ) : ℕ :=
  match cfg with
  | none => 256
  | some m => if m = 0 then 256 else m

/-- The options `deploy` passes to `docker.createContainer`: name
`container-<subdomain>`, binding hostPort→internalPort, memory
`memMB * 1024 * 1024` bytes, swap `memMB * 2 * 1024 * 1024` bytes, restart
policy `unless-stopped`. -/
def mkCreateOpts (s : List Char) (ip hp memMB : ℕ) : CreateOpts :=
  { name := str "container-" ++ s
    internalPort := ip
    hostPort := hp
    memoryBytes := memMB * 1024 * 1024
    memorySwapBytes := memMB * 2 * 1024 * 1024
    restartPolicy := str "unless-stopped" }

/-- The host port `deploy` obtains from `findAvailablePort(3003, 4000)`. -/
def deployHostPort (w : World) : ℕ :=
  findAvailablePort w.listing 3003 4000 w.probes w.fallbackRand

/-- The creation options `deploy` builds for `docker.createContainer`. -/
def deployOpts (w : World) (s : List Char) (ip : ℕ) : CreateOpts :=
  mkCreateOpts s ip (deployHostPort w) (memLimitMB w.memCfg)

/-- The success value `deploy` returns. -/
def deployResult (w : World) (img s : List Char) (ip : ℕ) : DeployRes :=
  { url := str "https://" ++ s ++ str ".boogiepop.cloud"
    containerName := str "container-" ++ s
    hostPort := deployHostPort w
    internalPort := ip
    imageName := img }

/-- `DeployService.deploy(imageName, subdomain, internalPort)`, in source
order: ping the runtime (fail fast if unreachable); tear down any existing
`container-<subdomain>` (errors swallowed); pull the image; call
`findAvailablePort(3003, 4000)` (which performs the listing call and never
throws); create the container; start it; write the nginx proxy config
(which validates the subdomain and port); return the deployment record.
Any error after the ping is wrapped into a `BadRequestException`. -/
def deploy (w : World) (img s : List Char) (ip : ℕ) : DeployOut :=
  if w.pingOk = false then
    ⟨Except.error DErr.dockerUnreachable, w.nginx, [Event.ping]⟩
  else
    let ev1 : List Event :=
      Event.ping :: teardownEvents w.teardown ++ [Event.pullImage]
    if w.pullOk = false then
      ⟨Except.error DErr.pullFailed, w.nginx, ev1⟩
    else
      let hp := deployHostPort w
      let opts := deployOpts w s ip
      let ev2 : List Event :=
        ev1 ++ [Event.listContainers, Event.createContainer opts]
      if w.createOk = false then
        ⟨Except.error DErr.createFailed, w.nginx, ev2⟩
      else if w.startOk = false then
        ⟨Except.error DErr.startFailed, w.nginx, ev2 ++ [Event.startContainer]⟩
      else
        let n := createProxyConfig w.nginx s hp w.fsOk w.reloadOk
        match n.res with
        | Except.error e =>
          ⟨Except.error (DErr.nginx e), n.fs,
            ev2 ++ Event.startContainer :: n.events⟩
        | Except.ok _ =>
          ⟨Except.ok (deployResult w img s ip), n.fs,
            ev2 ++ Event.startContainer :: n.events⟩

/- ----------------------------------------------------------------
   DeployService.removeDeployment
   ---------------------------------------------------------------- -/

/-- Environment oracle for one `removeDeployment` call: whether
`container-<subdomain>` exists (and is running), and the nginx-side state. -/
structure RemoveWorld where
  existing : Option Bool
  nginx : Option Fs
  reloadOk : Bool

/-- Success value of `removeDeployment`. -/
structure RemoveRes where
  subdomain : List Char
deriving DecidableEq, Repr

/-- Outcome of `removeDeployment`. -/
structure RemoveOut where
  res : Except DErr RemoveRes
  nginx : Option Fs
  events : List Event

/-- `DeployService.removeDeployment(subdomain)`: inspect (a 404 here is
swallowed), stop if running, remove the container (a 404 from `remove` is
caught by the outer handler and turned into the not-found
`BadRequestException` naming the subdomain), then remove the proxy config
(whose error, having no `statusCode`, is rethrown as-is). -/
def removeDeployment (w : RemoveWorld) (s : List Char) : RemoveOut :=
  match w.existing with
  | none =>
    ⟨Except.error (DErr.notFoundDeployment s), w.nginx, [Event.inspectTarget]⟩
  | some running =>
    let evs : List Event :=
      if running then [Event.inspectTarget, Event.stopTarget, Event.removeTarget]
      else [Event.inspectTarget, Event.removeTarget]
    let r := removeProxyConfig w.nginx s w.reloadOk
    match r.res with
    | Except.error e => ⟨Except.error (DErr.nginx e), r.fs, evs ++ r.events⟩
    | Except.ok _ =>
      ⟨Except.ok { subdomain := s ++ str ".boogiepop.cloud" }, r.fs, evs ++ r.events⟩

/- ----------------------------------------------------------------
   Named pieces used in the proofs below.
   ---------------------------------------------------------------- -/

/-- `tplMid` split just before the routing-directive pattern. -/
def tplMidPre : List Char :=
  str ".boogiepop.cloud;\n\n    location / \x7b\n        "

/-- `tplTail` with its leading semicolon removed. -/
def tplTailRest : List Char :=
  str "\n        proxy_http_version 1.1;\n        proxy_set_header Upgrade $http_upgrade;\n        proxy_set_header Connection \x27upgrade\x27;\n        proxy_set_header Host $host;\n        proxy_cache_bypass $http_upgrade;\n    \x7d\n\x7d\n"

/-- Trace of a `deploy` run in which every runtime call succeeds,
up to and including the container start. -/
def deploySuccessEvents (w : World) (s : List Char) (ip : ℕ) : List Event :=
  Event.ping :: (teardownEvents w.teardown ++
    (Event.pullImage :: Event.listContainers ::
      Event.createContainer (deployOpts w s ip) :: Event.startContainer ::
        (createProxyConfig w.nginx s (deployHostPort w) w.fsOk w.reloadOk).events))

/-- A fully healthy environment: runtime reachable, no pre-existing
container, empty runtime listing, existing empty config directory. -/
def okWorld : World :=
  { pingOk := true
    teardown := Teardown.absent
    pullOk := true
    listing := some []
    probes := [0]
    fallbackRand := 0
    createOk := true
    startOk := true
    memCfg := none
    fsOk := true
    reloadOk := true
    nginx := some [] }

/-- The healthy environment except that the `stop` call of the teardown
step throws (and is swallowed by the teardown's catch). -/
def tdFailWorld : World :=
  { okWorld with teardown := Teardown.stopErr }

/-- Runtime listing with both ports of the range `[3003, 3004]` bound. -/
def c1Containers : List Container :=
  [{ ports := [{ publicPort := some 3003 }] },
   { ports := [{ publicPort := some 3004 }] }]

/-- The deployment record of a successful `deploy` of image `img`,
subdomain `app`, internal port 3000 in `okWorld`. -/
def okDeployRes : DeployRes :=
  { url := str "https://" ++ str "app" ++ str ".boogiepop.cloud"
    containerName := str "container-" ++ str "app"
    hostPort := 3003
    internalPort := 3000
    imageName := str "img" }

/- ================================================================
   Lemmas about decimal rendering and parsing.
   ================================================================ -/

theorem natToCharsAux_acc (fuel : ℕ) :
    ∀ n acc, natToCharsAux fuel n acc = natToCharsAux fuel n [] ++ acc := by
  induction fuel with
  | zero => intro n acc; simp [natToCharsAux]
  | succ f ih =>
    intro n acc
    by_cases h : n < 10
    · simp [natToCharsAux, h]
    · simp only [natToCharsAux, if_neg h]
      rw [ih (n / 10) (Nat.digitChar (n % 10) :: acc),
        ih (n / 10) [Nat.digitChar (n % 10)]]
      simp

theorem natToCharsAux_fuel (n : ℕ) :
    ∀ f g, n < f → n < g → natToCharsAux f n [] = natToCharsAux g n [] := by
  induction n using Nat.strong_induction_on with
  | _ n ih =>
    intro f g hf hg
    cases f with
    | zero => omega
    | succ f =>
      cases g with
      | zero => omega
      | succ g =>
        by_cases h : n < 10
        · simp [natToCharsAux, h]
        · simp only [natToCharsAux, if_neg h]
          have hdiv : n / 10 < n := Nat.div_lt_self (by omega) (by omega)
          rw [natToCharsAux_acc f, natToCharsAux_acc g,
            ih (n / 10) hdiv f g (by omega) (by omega)]

theorem natToChars_eq (n : ℕ) :
    natToChars n =
      if n < 10 then [Nat.digitChar n]
      else natToChars (n / 10) ++ [Nat.digitChar (n % 10)] := by
  by_cases h : n < 10
  · simp [natToChars, natToCharsAux, h]
  · rw [if_neg h]
    have h1 : natToChars n = natToCharsAux n (n / 10) [Nat.digitChar (n % 10)] := by
      simp [natToChars, natToCharsAux, h]
    rw [h1, natToCharsAux_acc,
      natToCharsAux_fuel (n / 10) n (n / 10 + 1) (by omega) (by omega)]
    rfl

theorem digitChar_isDigit : ∀ d, d < 10 → (Nat.digitChar d).isDigit = true := by decide

theorem digitVal_digitChar : ∀ d, d < 10 → digitVal (Nat.digitChar d) = d := by decide

theorem natToChars_digits (n : ℕ) : ∀ c ∈ natToChars n, c.isDigit = true := by
  induction n using Nat.strong_induction_on with
  | _ n ih =>
    rw [natToChars_eq]
    by_cases h : n < 10
    · simpa [h] using digitChar_isDigit n h
    · simp only [if_neg h, List.mem_append, List.mem_singleton]
      intro c hc
      rcases hc with hc | hc
      · exact ih (n / 10) (Nat.div_lt_self (by omega) (by omega)) c hc
      · subst hc
        exact digitChar_isDigit (n % 10) (Nat.mod_lt n (by omega))

theorem natToChars_ne_nil (n : ℕ) : natToChars n ≠ [] := by
  rw [natToChars_eq]
  by_cases h : n < 10 <;> simp [h]

theorem charsToNat_snoc (ds : List Char) (c : Char) :
    charsToNat (ds ++ [c]) = charsToNat ds * 10 + digitVal c := by
  simp [charsToNat, List.foldl_append]

theorem charsToNat_natToChars (n : ℕ) : charsToNat (natToChars n) = n := by
  induction n using Nat.strong_induction_on with
  | _ n ih =>
    rw [natToChars_eq]
    by_cases h : n < 10
    · simp only [if_pos h, charsToNat, List.foldl_cons, List.foldl_nil]
      rw [digitVal_digitChar n h]
      omega
    · rw [if_neg h, charsToNat_snoc,
        ih (n / 10) (Nat.div_lt_self (by omega) (by omega)),
        digitVal_digitChar (n % 10) (Nat.mod_lt n (by omega))]
      omega

/- ================================================================
   The routing-directive pattern occurs exactly once in a rendered
   config.  The census argument: the character at offset 5 of the
   pattern is an underscore, and in the part of the rendered config
   before the genuine pattern occurrence the only underscore is the
   one of `server_name` (position 35 of `tplHead`); a match there is
   refuted because position 30 of `tplHead` holds an `e`, not a `p`.
   ================================================================ -/

theorem tplMid_decomp : tplMid = tplMidPre ++ portPat := by decide

theorem tplTail_decomp : tplTail = ';' :: tplTailRest := by decide

theorem tplHead_len : tplHead.length = 41 := by decide

theorem portPat_len : portPat.length = 28 := by decide

theorem tplHead_underscore : ∀ j, j < 41 → tplHead[j]? = some '_' → j = 35 := by decide

theorem tplHead_at30 : tplHead[30]? = some 'e' := by decide

theorem portPat_at0 : portPat[0]? = some 'p' := by decide

theorem portPat_at5 : portPat[5]? = some '_' := by decide

theorem portPat_head_no_underscore : ∀ k, k < 5 → ¬ portPat[k]? = some '_' := by decide

theorem tplMidPre_no_underscore : '_' ∉ tplMidPre := by decide

theorem not_mem_of_subChar_false {s : List Char} (hs : validSubdomain s = true)
    {c : Char} (hc : subChar c = false) : c ∉ s := by
  intro hm
  have h2 := (Bool.and_eq_true _ _).mp hs
  have h3 := List.all_eq_true.mp h2.2 c hm
  rw [hc] at h3
  exact Bool.noConfusion h3

theorem getElem?_of_prefix_drop {l pat : List Char} {i j : ℕ}
    (h : pat <+: l.drop i) (hj : j < pat.length) : l[i + j]? = pat[j]? := by
  obtain ⟨t, ht⟩ := h
  rw [← List.getElem?_drop, ← ht, List.getElem?_append_left hj]

theorem no_spurious (s : List Char) (hs : validSubdomain s = true) (R : List Char)
    (i : ℕ) (hi : i < 41 + (s.length + tplMidPre.length))
    (h : portPat <+: (tplHead ++ (s ++ (tplMidPre ++ (portPat ++ R)))).drop i) :
    False := by
  have h5 : (tplHead ++ (s ++ (tplMidPre ++ (portPat ++ R))))[i + 5]? = some '_' := by
    rw [getElem?_of_prefix_drop h (by rw [portPat_len]; omega)]
    exact portPat_at5
  have h0 : (tplHead ++ (s ++ (tplMidPre ++ (portPat ++ R))))[i + 0]? = some 'p' := by
    rw [getElem?_of_prefix_drop h (by rw [portPat_len]; omega)]
    exact portPat_at0
  have hj : i + 5 = 35 := by
    by_cases hlt : i + 5 < 41
    · rw [List.getElem?_append_left (by rw [tplHead_len]; omega)] at h5
      exact tplHead_underscore _ hlt h5
    · push_neg at hlt
      rw [List.getElem?_append_right (by rw [tplHead_len]; omega), tplHead_len] at h5
      by_cases hk : i + 5 - 41 < s.length
      · rw [List.getElem?_append_left hk] at h5
        exact absurd (List.getElem?_mem h5) (not_mem_of_subChar_false hs (by decide))
      · push_neg at hk
        rw [List.getElem?_append_right hk] at h5
        by_cases hk2 : i + 5 - 41 - s.length < tplMidPre.length
        · rw [List.getElem?_append_left hk2] at h5
          exact absurd (List.getElem?_mem h5) tplMidPre_no_underscore
        · push_neg at hk2
          rw [List.getElem?_append_right hk2] at h5
          have hk3 : i + 5 - 41 - s.length - tplMidPre.length < 5 := by omega
          rw [List.getElem?_append_left (by rw [portPat_len]; omega)] at h5
          exact absurd h5 (portPat_head_no_underscore _ hk3)
  have hi30 : i = 30 := by omega
  subst hi30
  rw [List.getElem?_append_left (by rw [tplHead_len]; omega)] at h0
  exact absurd (tplHead_at30.symm.trans h0) (by decide)

theorem matchPortDirective_cons_neg {c : Char} {cs : List Char}
    (h : portPat.isPrefixOf (c :: cs) = false) :
    matchPortDirective (c :: cs) = matchPortDirective cs := by
  simp only [matchPortDirective]
  rw [if_neg (by simp [h])]

theorem matchPortDirective_append (X rest : List Char)
    (h : ∀ i, i < X.length → ¬ portPat <+: (X ++ rest).drop i) :
    matchPortDirective (X ++ rest) = matchPortDirective rest := by
  induction X with
  | nil => simp
  | cons c cs ih =>
    have h0 := h 0 (by simp)
    simp only [List.drop_zero, List.cons_append] at h0
    have hb : portPat.isPrefixOf (c :: (cs ++ rest)) = false := by
      rw [Bool.eq_false_iff]
      intro hb
      exact h0 (List.isPrefixOf_iff_prefix.mp hb)
    rw [List.cons_append, matchPortDirective_cons_neg hb]
    refine ih (fun i hi => ?_)
    have := h (i + 1) (by simp; omega)
    simpa [List.drop_succ_cons] using this

theorem portPat_cons : portPat = 'p' :: str "roxy_pass http://localhost:" := by decide

theorem matchPortDirective_here (D T : List Char) (hD : D ≠ [])
    (hDd : ∀ c ∈ D, c.isDigit = true) :
    matchPortDirective (portPat ++ (D ++ (';' :: T))) = some (charsToNat D) := by
  have hdrop : (portPat ++ (D ++ (';' :: T))).drop portPat.length = D ++ (';' :: T) :=
    List.drop_left _ _
  have hpfx : portPat.isPrefixOf (portPat ++ (D ++ (';' :: T))) = true :=
    List.isPrefixOf_iff_prefix.mpr (List.prefix_append _ _)
  obtain ⟨c, cs, hcc⟩ : ∃ c cs, portPat ++ (D ++ (';' :: T)) = c :: cs := by
    rw [portPat_cons, List.cons_append]
    exact ⟨_, _, rfl⟩
  rw [hcc] at hdrop hpfx ⊢
  simp only [matchPortDirective, hpfx, if_true, hdrop]
  have hsemi : (';' : Char).isDigit = false := by decide
  rw [List.takeWhile_append_of_pos hDd, List.takeWhile_cons, hsemi]
  have hDe : D.isEmpty = false := by
    cases D with
    | nil => exact absurd rfl hD
    | cons x xs => rfl
  simp [hDe]

theorem matchPortDirective_getNginxConfig (s : List Char) (p : ℕ)
    (hs : validSubdomain s = true) :
    matchPortDirective (getNginxConfig s p) = some p := by
  have hdec : getNginxConfig s p =
      (tplHead ++ (s ++ tplMidPre)) ++
        (portPat ++ (natToChars p ++ (';' :: tplTailRest))) := by
    rw [getNginxConfig, tplMid_decomp, tplTail_decomp]
    simp [List.append_assoc]
  rw [hdec,
    matchPortDirective_append _ _ ?hocc,
    matchPortDirective_here _ _ (natToChars_ne_nil p) (natToChars_digits p),
    charsToNat_natToChars]
  case hocc =>
    intro i hi hpre
    apply no_spurious s hs (natToChars p ++ (';' :: tplTailRest)) i
    · simpa [List.length_append, tplHead_len] using hi
    · simpa [List.append_assoc] using hpre

theorem splitAtFirst_self_append (pat Y : List Char) (hp : pat ≠ []) :
    splitAtFirst pat (pat ++ Y) = some ([], Y) := by
  obtain ⟨c, cs, rfl⟩ := List.exists_cons_of_ne_nil hp
  have hpfx : (c :: cs).isPrefixOf (c :: (cs ++ Y)) = true := by
    rw [← List.cons_append]
    exact List.isPrefixOf_iff_prefix.mpr (List.prefix_append _ _)
  rw [List.cons_append]
  simp only [splitAtFirst, hpfx, if_true]
  rw [← List.cons_append, List.drop_left]

theorem splitAtFirst_cons_no (pat : List Char) (c : Char) (cs : List Char)
    (hno : pat.isPrefixOf (c :: cs) = false) :
    splitAtFirst pat (c :: cs) =
      (splitAtFirst pat cs).map (fun pr => (c :: pr.1, pr.2)) := by
  simp only [splitAtFirst, hno, Bool.false_eq_true, if_false]
  cases h : splitAtFirst pat cs <;> simp [h]

theorem splitAtFirst_append_pat (s : List Char) (hnd : '.' ∉ s) :
    splitAtFirst (str ".conf") (s ++ str ".conf") = some (s, []) := by
  induction s with
  | nil => simpa using splitAtFirst_self_append (str ".conf") [] (by decide)
  | cons c cs ih =>
    have hcne : ('.' == c) = false := by
      rw [beq_eq_false_iff_ne]
      intro h
      exact hnd (by rw [h]; exact List.mem_cons_self _ _)
    have hc : (str ".conf").isPrefixOf (c :: (cs ++ str ".conf")) = false := by
      rw [show str ".conf" = '.' :: str "conf" from by decide]
      simp [List.isPrefixOf, hcne]
    rw [List.cons_append, splitAtFirst_cons_no _ _ _ hc,
      ih (fun hm => hnd (List.mem_cons_of_mem _ hm))]
    rfl

theorem replaceFirst_strip (s : List Char) (hnd : '.' ∉ s) :
    replaceFirst (str ".conf") [] (s ++ str ".conf") = s := by
  rw [replaceFirst, splitAtFirst_append_pat s hnd]
  simp

theorem conf_isSuffix (s : List Char) :
    (str ".conf").isSuffixOf (s ++ str ".conf") = true :=
  List.isSuffixOf_iff_suffix.mpr (List.suffix_append _ _)

theorem fsWrite_mem (fs : Fs) (n c : List Char) : (n, c) ∈ fsWrite fs n c := by
  induction fs with
  | nil => simp [fsWrite]
  | cons f fs ih =>
    obtain ⟨m, d⟩ := f
    by_cases h : m = n <;> simp [fsWrite, h, ih]

theorem fsGet_fsWrite (fs : Fs) (n c : List Char) :
    fsGet (fsWrite fs n c) n = some c := by
  induction fs with
  | nil => simp [fsWrite, fsGet]
  | cons f fs ih =>
    obtain ⟨m, d⟩ := f
    by_cases h : m = n <;> simp [fsWrite, fsGet, h, ih]

/- ================================================================
   Port allocator lemmas.
   ================================================================ -/

theorem randomPhase_found {used : List ℕ} {mn mx : ℕ} (hle : mn ≤ mx) :
    ∀ probes p, randomPhase used mn mx probes = some p →
      mn ≤ p ∧ p ≤ mx ∧ p ∉ used := by
  intro probes
  induction probes with
  | nil => intro p h; simp [randomPhase] at h
  | cons r rs ih =>
    intro p h
    simp only [randomPhase] at h
    by_cases hm : mn + r % (mx + 1 - mn) ∈ used
    · rw [if_pos hm] at h
      exact ih p h
    · rw [if_neg hm] at h
      injection h with h
      subst h
      refine ⟨by omega, ?_, hm⟩
      have := Nat.mod_lt r (y := mx + 1 - mn) (by omega)
      omega

theorem seqScan_found {used : List ℕ} {mn mx p : ℕ} (h : seqScan used mn mx = some p) :
    mn ≤ p ∧ p ≤ mx ∧ p ∉ used := by
  have h1 := List.find?_some h
  have h2 := List.mem_of_find?_eq_some h
  rw [List.mem_range'_1] at h2
  refine ⟨h2.1, by omega, of_decide_eq_true h1⟩

theorem seqScan_some {used : List ℕ} {mn mx free : ℕ} (h1 : mn ≤ free)
    (h2 : free ≤ mx) (h3 : free ∉ used) : seqScan used mn mx ≠ none := by
  intro h
  rw [seqScan, List.find?_eq_none] at h
  exact h free (List.mem_range'_1.mpr ⟨h1, by omega⟩) (decide_eq_true h3)

theorem tryFindPort_found {used : List ℕ} {mn mx : ℕ} (probes : List ℕ)
    {free : ℕ} (h1 : mn ≤ free) (h2 : free ≤ mx) (h3 : free ∉ used) :
    ∃ p, tryFindPort used mn mx probes = TryPortResult.found p ∧
      mn ≤ p ∧ p ≤ mx ∧ p ∉ used := by
  rw [tryFindPort]
  cases hrp : randomPhase used mn mx (probes.take 100) with
  | some q => exact ⟨q, rfl, randomPhase_found (by omega) _ q hrp⟩
  | none =>
    cases hsc : seqScan used mn mx with
    | none => exact absurd hsc (seqScan_some h1 h2 h3)
    | some q => exact ⟨q, rfl, seqScan_found hsc⟩

/-- C4: whenever the container listing succeeds and at least one port of
`[mn, mx]` is not publicly bound, `findAvailablePort` returns a port in
`[mn, mx]` that is not among the publicly bound host ports in that range,
whatever random candidates are drawn. -/
theorem c4_allocator_returns_free_port (cs : List Container) (mn mx : ℕ)
    (probes : List ℕ) (rand : ℕ) (free : ℕ) (h1 : mn ≤ free) (h2 : free ≤ mx)
    (h3 : free ∉ usedPorts cs mn mx) :
    mn ≤ findAvailablePort (some cs) mn mx probes rand ∧
    findAvailablePort (some cs) mn mx probes rand ≤ mx ∧
    findAvailablePort (some cs) mn mx probes rand ∉ usedPorts cs mn mx := by
  obtain ⟨p, hp, hga, hgb, hgc⟩ := tryFindPort_found probes h1 h2 h3
  simp only [findAvailablePort, hp]
  exact ⟨hga, hgb, hgc⟩

/-- Witness for C4 at a concrete input: one container holds 3003, the range
is `[3003, 3004]`, no probes are drawn, so the sequential scan returns 3004. -/
theorem c4_witness :
    3003 ≤ findAvailablePort (some [Container.mk [PortInfo.mk (some 3003)]]) 3003 3004 [] 1 ∧
    findAvailablePort (some [Container.mk [PortInfo.mk (some 3003)]]) 3003 3004 [] 1 ≤ 3004 ∧
    findAvailablePort (some [Container.mk [PortInfo.mk (some 3003)]]) 3003 3004 [] 1 ∉
      usedPorts [Container.mk [PortInfo.mk (some 3003)]] 3003 3004 :=
  c4_allocator_returns_free_port [Container.mk [PortInfo.mk (some 3003)]] 3003 3004 [] 1
    3004 (by decide) (by decide) (by decide)

/-- C1 (code bug evidence): with range `[3003, 3004]` fully saturated and a
*successful* listing, the `try` body does detect exhaustion — but the
function's own `catch` swallows that exhaustion error and returns an
unchecked random candidate (here 3003, which is already bound), exactly the
value the "listing failed" degrade path would return.  The hard failure the
spec requires never escapes. -/
theorem c1_exhaustion_swallowed :
    tryFindPort (usedPorts c1Containers 3003 3004) 3003 3004 [0, 1, 0, 1] =
      TryPortResult.exhausted 3003 3004 ∧
    findAvailablePort (some c1Containers) 3003 3004 [0, 1, 0, 1] 0 = 3003 ∧
    3003 ∈ usedPorts c1Containers 3003 3004 ∧
    findAvailablePort none 3003 3004 [0, 1, 0, 1] 0 = 3003 := by decide

/- ================================================================
   Trace lemmas and the control-flow shapes of `deploy`.
   ================================================================ -/

theorem teardown_any_write (t : Teardown) :
    (teardownEvents t).any isConfigWrite = false := by
  cases t with
  | present b => cases b <;> decide
  | removeErr b => cases b <;> decide
  | absent => decide
  | inspectErr => decide
  | stopErr => decide

theorem teardown_no_write_start (t : Teardown) :
    (teardownEvents t).all (fun e => !isConfigWrite e && !isStart e) = true := by
  cases t with
  | present b => cases b <;> decide
  | removeErr b => cases b <;> decide
  | absent => decide
  | inspectErr => decide
  | stopErr => decide

theorem noWriteBeforeStart_append (l1 rest : List Event)
    (h : l1.all (fun e => !isConfigWrite e && !isStart e) = true) :
    noWriteBeforeStart (l1 ++ rest) = noWriteBeforeStart rest := by
  induction l1 with
  | nil => rfl
  | cons e es ih =>
    rw [List.all_cons] at h
    obtain ⟨he, hrest⟩ := (Bool.and_eq_true _ _).mp h
    obtain ⟨hw, hst⟩ := (Bool.and_eq_true _ _).mp he
    rw [Bool.not_eq_true'] at hw hst
    rw [List.cons_append]
    simp only [noWriteBeforeStart, hw, hst, Bool.false_eq_true, if_false]
    exact ih hrest

theorem deploy_ping_fail (w : World) (img s : List Char) (ip : ℕ)
    (h : w.pingOk = false) :
    deploy w img s ip =
      ⟨Except.error DErr.dockerUnreachable, w.nginx, [Event.ping]⟩ := by
  simp [deploy, h]

theorem deploy_pull_fail (w : World) (img s : List Char) (ip : ℕ)
    (h1 : w.pingOk = true) (h2 : w.pullOk = false) :
    deploy w img s ip =
      ⟨Except.error DErr.pullFailed, w.nginx,
        Event.ping :: (teardownEvents w.teardown ++ [Event.pullImage])⟩ := by
  simp [deploy, h1, h2]

theorem deploy_create_fail (w : World) (img s : List Char) (ip : ℕ)
    (h1 : w.pingOk = true) (h2 : w.pullOk = true) (h3 : w.createOk = false) :
    deploy w img s ip =
      ⟨Except.error DErr.createFailed, w.nginx,
        Event.ping :: (teardownEvents w.teardown ++
          [Event.pullImage, Event.listContainers,
            Event.createContainer (deployOpts w s ip)])⟩ := by
  simp [deploy, h1, h2, h3]

theorem deploy_start_fail (w : World) (img s : List Char) (ip : ℕ)
    (h1 : w.pingOk = true) (h2 : w.pullOk = true) (h3 : w.createOk = true)
    (h4 : w.startOk = false) :
    deploy w img s ip =
      ⟨Except.error DErr.startFailed, w.nginx,
        Event.ping :: (teardownEvents w.teardown ++
          [Event.pullImage, Event.listContainers,
            Event.createContainer (deployOpts w s ip), Event.startContainer])⟩ := by
  simp [deploy, h1, h2, h3, h4]

theorem deploy_after_start (w : World) (img s : List Char) (ip : ℕ)
    (h1 : w.pingOk = true) (h2 : w.pullOk = true) (h3 : w.createOk = true)
    (h4 : w.startOk = true) :
    deploy w img s ip =
      ⟨match (createProxyConfig w.nginx s (deployHostPort w) w.fsOk w.reloadOk).res with
         | Except.error e => Except.error (DErr.nginx e)
         | Except.ok _ => Except.ok (deployResult w img s ip),
        (createProxyConfig w.nginx s (deployHostPort w) w.fsOk w.reloadOk).fs,
        deploySuccessEvents w s ip⟩ := by
  cases hres : (createProxyConfig w.nginx s (deployHostPort w) w.fsOk w.reloadOk).res with
  | error e => simp [deploy, h1, h2, h3, h4, hres, deploySuccessEvents]
  | ok v => simp [deploy, h1, h2, h3, h4, hres, deploySuccessEvents]

/- ================================================================
   Claims about DeployService.deploy.
   ================================================================ -/

/-- C2 (counterexample): `DeployService.deploy` itself performs no subdomain
validation.  Deploying the invalid subdomain `Has_Upper` in a fully healthy
environment performs the ping, the pull, the container create and the
container start before failing (only `createProxyConfig`, after start,
rejects the subdomain); and `DeployService.removeDeployment` accepts the
invalid subdomain outright when a matching container exists. -/
theorem c2_counterexample :
    validSubdomain (str "Has_Upper") = false ∧
    Event.ping ∈ (deploy okWorld (str "img") (str "Has_Upper") 3000).events ∧
    Event.pullImage ∈ (deploy okWorld (str "img") (str "Has_Upper") 3000).events ∧
    Event.createContainer (deployOpts okWorld (str "Has_Upper") 3000) ∈
      (deploy okWorld (str "img") (str "Has_Upper") 3000).events ∧
    Event.startContainer ∈ (deploy okWorld (str "img") (str "Has_Upper") 3000).events ∧
    (removeDeployment ⟨some true, some [(str "Has_Upper" ++ str ".conf", [])], true⟩
        (str "Has_Upper")).res =
      Except.ok { subdomain := str "Has_Upper" ++ str ".boogiepop.cloud" } :=
  ⟨by decide, by decide, by decide, by decide, by decide, rfl⟩

/-- C2 (amended): with an invalid subdomain, `deploy` always ends in an
error and never writes a proxy config (its nginx state is unchanged) — but
the rejection happens inside `createProxyConfig`, after the runtime calls,
not up front. -/
theorem c2_invalid_subdomain_fails_late (w : World) (img s : List Char) (ip : ℕ)
    (h : validSubdomain s = false) :
    (∃ e, (deploy w img s ip).res = Except.error e) ∧
    (deploy w img s ip).nginx = w.nginx ∧
    hasConfigWrite (deploy w img s ip).events = false := by
  cases h1 : w.pingOk with
  | false =>
    rw [deploy_ping_fail w img s ip h1]
    exact ⟨⟨_, rfl⟩, rfl, rfl⟩
  | true =>
  cases h2 : w.pullOk with
  | false =>
    rw [deploy_pull_fail w img s ip h1 h2]
    refine ⟨⟨_, rfl⟩, rfl, ?_⟩
    simp [hasConfigWrite, List.any_cons, List.any_append, teardown_any_write,
      isConfigWrite]
  | true =>
  cases h3 : w.createOk with
  | false =>
    rw [deploy_create_fail w img s ip h1 h2 h3]
    refine ⟨⟨_, rfl⟩, rfl, ?_⟩
    simp [hasConfigWrite, List.any_cons, List.any_append, teardown_any_write,
      isConfigWrite]
  | true =>
  cases h4 : w.startOk with
  | false =>
    rw [deploy_start_fail w img s ip h1 h2 h3 h4]
    refine ⟨⟨_, rfl⟩, rfl, ?_⟩
    simp [hasConfigWrite, List.any_cons, List.any_append, teardown_any_write,
      isConfigWrite, isStart]
  | true =>
    rw [deploy_after_start w img s ip h1 h2 h3 h4]
    have hn : createProxyConfig w.nginx s (deployHostPort w) w.fsOk w.reloadOk =
        ⟨Except.error (NErr.invalidSubdomain s), w.nginx, []⟩ := by
      simp [createProxyConfig, h]
    simp only [deploySuccessEvents]
    rw [hn]
    refine ⟨⟨_, rfl⟩, rfl, ?_⟩
    simp [hasConfigWrite, List.any_cons, List.any_append, teardown_any_write,
      isConfigWrite, isStart]

theorem c2_amended_witness :
    (∃ e, (deploy okWorld (str "img") (str "Has_Upper") 3000).res = Except.error e) ∧
    (deploy okWorld (str "img") (str "Has_Upper") 3000).nginx = okWorld.nginx ∧
    hasConfigWrite (deploy okWorld (str "img") (str "Has_Upper") 3000).events = false :=
  c2_invalid_subdomain_fails_late okWorld (str "img") (str "Has_Upper") 3000 (by decide)

/-- C3 (counterexample): a failure *inside the teardown step* is swallowed
by `deploy` (as its catch only logs), so the run carries on and the proxy
config is written even though the teardown's stop call failed — refuting the
claim that a teardown failure prevents the config write. -/
theorem c3_counterexample :
    teardownFailed tdFailWorld.teardown = true ∧
    hasConfigWrite (deploy tdFailWorld (str "img") (str "app") 3000).events = true := by
  decide

/-- C3 (amended): a proxy-config write only happens when the ping, pull,
container create and container start all succeeded, and in the trace the
container start strictly precedes the write (no write occurs before the
first start).  Teardown failures are swallowed and do not prevent the
write; the port allocator never fails. -/
theorem c3_write_only_after_start (w : World) (img s : List Char) (ip : ℕ)
    (h : hasConfigWrite (deploy w img s ip).events = true) :
    w.pingOk = true ∧ w.pullOk = true ∧ w.createOk = true ∧ w.startOk = true ∧
    noWriteBeforeStart (deploy w img s ip).events = true := by
  cases h1 : w.pingOk with
  | false =>
    rw [deploy_ping_fail w img s ip h1] at h
    simp [hasConfigWrite, isConfigWrite] at h
  | true =>
  cases h2 : w.pullOk with
  | false =>
    rw [deploy_pull_fail w img s ip h1 h2] at h
    simp [hasConfigWrite, List.any_cons, List.any_append, teardown_any_write,
      isConfigWrite] at h
  | true =>
  cases h3 : w.createOk with
  | false =>
    rw [deploy_create_fail w img s ip h1 h2 h3] at h
    simp [hasConfigWrite, List.any_cons, List.any_append, teardown_any_write,
      isConfigWrite] at h
  | true =>
  cases h4 : w.startOk with
  | false =>
    rw [deploy_start_fail w img s ip h1 h2 h3 h4] at h
    simp [hasConfigWrite, List.any_cons, List.any_append, teardown_any_write,
      isConfigWrite, isStart] at h
  | true =>
    refine ⟨rfl, rfl, rfl, rfl, ?_⟩
    rw [deploy_after_start w img s ip h1 h2 h3 h4]
    show noWriteBeforeStart (deploySuccessEvents w s ip) = true
    simp only [deploySuccessEvents, noWriteBeforeStart, isConfigWrite, isStart,
      Bool.false_eq_true, if_false]
    rw [noWriteBeforeStart_append _ _ (teardown_no_write_start w.teardown)]
    simp [noWriteBeforeStart, isConfigWrite, isStart]

theorem c3_witness :
    okWorld.pingOk = true ∧ okWorld.pullOk = true ∧ okWorld.createOk = true ∧
    okWorld.startOk = true ∧
    noWriteBeforeStart (deploy okWorld (str "img") (str "app") 3000).events = true :=
  c3_write_only_after_start okWorld (str "img") (str "app") 3000 (by decide)

/-- C6: every successful `deploy` created its container with the options the
claim describes: name `container-<subdomain>`, the binding of the returned
host port to the internal port, memory `memLimitMB * 1024 * 1024` bytes
(256 MB when unconfigured), swap exactly twice the memory, and the
`unless-stopped` restart policy. -/
theorem c6_create_container_options (w : World) (img s : List Char) (ip : ℕ)
    (r : DeployRes) (h : (deploy w img s ip).res = Except.ok r) :
    Event.createContainer (deployOpts w s ip) ∈ (deploy w img s ip).events ∧
    (deployOpts w s ip).name = str "container-" ++ s ∧
    (deployOpts w s ip).internalPort = ip ∧
    (deployOpts w s ip).hostPort = r.hostPort ∧
    (deployOpts w s ip).memoryBytes = memLimitMB w.memCfg * 1024 * 1024 ∧
    (deployOpts w s ip).memorySwapBytes = 2 * (deployOpts w s ip).memoryBytes ∧
    (deployOpts w s ip).restartPolicy = str "unless-stopped" ∧
    (w.memCfg = none → (deployOpts w s ip).memoryBytes = 256 * 1024 * 1024) := by
  cases h1 : w.pingOk with
  | false => rw [deploy_ping_fail w img s ip h1] at h; simp at h
  | true =>
  cases h2 : w.pullOk with
  | false => rw [deploy_pull_fail w img s ip h1 h2] at h; simp at h
  | true =>
  cases h3 : w.createOk with
  | false => rw [deploy_create_fail w img s ip h1 h2 h3] at h; simp at h
  | true =>
  cases h4 : w.startOk with
  | false => rw [deploy_start_fail w img s ip h1 h2 h3 h4] at h; simp at h
  | true =>
    rw [deploy_after_start w img s ip h1 h2 h3 h4] at h
    rw [deploy_after_start w img s ip h1 h2 h3 h4]
    cases hres : (createProxyConfig w.nginx s (deployHostPort w) w.fsOk w.reloadOk).res with
    | error e => rw [hres] at h; simp at h
    | ok v =>
      rw [hres] at h
      have hr : deployResult w img s ip = r := by
        injection h
      refine ⟨?_, ?_, ?_, ?_, ?_, ?_, ?_, ?_⟩
      · simp [deploySuccessEvents]
      · rfl
      · rfl
      · rw [← hr]; rfl
      · rfl
      · simp [deployOpts, mkCreateOpts]; ring
      · rfl
      · intro hc; simp [deployOpts, mkCreateOpts, memLimitMB, hc]

theorem c6_witness :
    Event.createContainer (deployOpts okWorld (str "app") 3000) ∈
      (deploy okWorld (str "img") (str "app") 3000).events ∧
    (deployOpts okWorld (str "app") 3000).name = str "container-" ++ str "app" ∧
    (deployOpts okWorld (str "app") 3000).internalPort = 3000 ∧
    (deployOpts okWorld (str "app") 3000).hostPort = okDeployRes.hostPort ∧
    (deployOpts okWorld (str "app") 3000).memoryBytes =
      memLimitMB okWorld.memCfg * 1024 * 1024 ∧
    (deployOpts okWorld (str "app") 3000).memorySwapBytes =
      2 * (deployOpts okWorld (str "app") 3000).memoryBytes ∧
    (deployOpts okWorld (str "app") 3000).restartPolicy = str "unless-stopped" ∧
    (okWorld.memCfg = none →
      (deployOpts okWorld (str "app") 3000).memoryBytes = 256 * 1024 * 1024) :=
  c6_create_container_options okWorld (str "img") (str "app") 3000 okDeployRes (by rfl)

/- ================================================================
   Claims about NginxService.
   ================================================================ -/

/-- C5: when the subdomain and port are valid and the file write succeeds
but the reload command fails, `createProxyConfig` still returns a success
result, the config file is on disk with the rendered template content, and
the result is identical to the one of a run whose reload succeeds — the
reload failure is never surfaced. -/
theorem c5_reload_failure_not_surfaced (st : Option Fs) (s : List Char) (p : ℕ)
    (hs : validSubdomain s = true) (hp : validPort p = true) :
    (∃ r, (createProxyConfig st s p true false).res = Except.ok r) ∧
    fsGetOpt (createProxyConfig st s p true false).fs (s ++ str ".conf") =
      some (getNginxConfig s p) ∧
    (createProxyConfig st s p true false).res =
      (createProxyConfig st s p true true).res := by
  cases st with
  | none =>
    refine ⟨⟨{ subdomain := s ++ str ".boogiepop.cloud", port := p,
               filePath := s ++ str ".conf" }, ?_⟩, ?_, ?_⟩ <;>
      simp [createProxyConfig, hs, hp, fsGetOpt, fsGet_fsWrite]
  | some fs =>
    refine ⟨⟨{ subdomain := s ++ str ".boogiepop.cloud", port := p,
               filePath := s ++ str ".conf" }, ?_⟩, ?_, ?_⟩ <;>
      simp [createProxyConfig, hs, hp, fsGetOpt, fsGet_fsWrite]

theorem c5_witness :
    (∃ r, (createProxyConfig none (str "app") 3003 true false).res = Except.ok r) ∧
    fsGetOpt (createProxyConfig none (str "app") 3003 true false).fs
      (str "app" ++ str ".conf") = some (getNginxConfig (str "app") 3003) ∧
    (createProxyConfig none (str "app") 3003 true false).res =
      (createProxyConfig none (str "app") 3003 true true).res :=
  c5_reload_failure_not_surfaced none (str "app") 3003 (by decide) (by decide)

/-- C7: removing a deployment whose container does not exist fails with the
not-found error naming the subdomain, and `removeProxyConfig` on a subdomain
whose config file is absent (including when the whole directory is absent)
fails rather than succeeding silently. -/
theorem c7_remove_missing_is_error (w : RemoveWorld) (s : List Char)
    (h : w.existing = none) (st : Option Fs) (t : List Char) (rk : Bool)
    (h2 : fsGetOpt st (t ++ str ".conf") = none) :
    (removeDeployment w s).res = Except.error (DErr.notFoundDeployment s) ∧
    (removeProxyConfig st t rk).res = Except.error (NErr.configMissing t) := by
  constructor
  · simp [removeDeployment, h]
  · cases st with
    | none => rfl
    | some fs =>
      simp only [fsGetOpt] at h2
      simp [removeProxyConfig, h2]

theorem c7_witness :
    (removeDeployment ⟨none, none, true⟩ (str "ghost")).res =
      Except.error (DErr.notFoundDeployment (str "ghost")) ∧
    (removeProxyConfig none (str "ghost") true).res =
      Except.error (NErr.configMissing (str "ghost")) :=
  c7_remove_missing_is_error ⟨none, none, true⟩ (str "ghost") rfl none (str "ghost") true rfl

/-- C8: writing a config for a valid subdomain and port and then listing
recovers exactly that port for that subdomain — the rendered template parsed
back through the routing-directive pattern is a round trip. -/
theorem c8_roundtrip (st : Option Fs) (s : List Char) (p : ℕ) (reloadOk : Bool)
    (hs : validSubdomain s = true) (hp : validPort p = true) :
    (ProxyEntry.mk (s ++ str ".boogiepop.cloud") (some p) (s ++ str ".conf")) ∈
      listProxyConfigs (createProxyConfig st s p true reloadOk).fs := by
  have hdot : '.' ∉ s := not_mem_of_subChar_false hs (by decide)
  have hfs : (createProxyConfig st s p true reloadOk).fs =
      some (fsWrite (match st with | none => ([] : Fs) | some fs => fs)
        (s ++ str ".conf") (getNginxConfig s p)) := by
    cases st <;> simp [createProxyConfig, hs, hp]
  rw [hfs]
  simp only [listProxyConfigs]
  refine List.mem_map.mpr
    ⟨(s ++ str ".conf", getNginxConfig s p),
      List.mem_filter.mpr ⟨fsWrite_mem _ _ _, conf_isSuffix s⟩, ?_⟩
  simp [replaceFirst_strip s hdot, matchPortDirective_getNginxConfig s p hs]

theorem c8_witness :
    (ProxyEntry.mk (str "app" ++ str ".boogiepop.cloud") (some 3003)
        (str "app" ++ str ".conf")) ∈
      listProxyConfigs (createProxyConfig none (str "app") 3003 true true).fs :=
  c8_roundtrip none (str "app") 3003 true (by decide) (by decide)

/-- C9: an invalid subdomain or port makes `createProxyConfig` fail before
any filesystem interaction: the directory state is unchanged and the effect
trace is empty (no directory creation, no write, no reload). -/
theorem c9_invalid_input_rejected_before_fs (st : Option Fs) (s : List Char)
    (p : ℕ) (fsOk reloadOk : Bool)
    (h : validSubdomain s = false ∨ validPort p = false) :
    (∃ e, (createProxyConfig st s p fsOk reloadOk).res = Except.error e) ∧
    (createProxyConfig st s p fsOk reloadOk).fs = st ∧
    (createProxyConfig st s p fsOk reloadOk).events = [] := by
  cases hv : validSubdomain s with
  | false =>
    exact ⟨⟨NErr.invalidSubdomain s, by simp [createProxyConfig, hv]⟩,
      by simp [createProxyConfig, hv], by simp [createProxyConfig, hv]⟩
  | true =>
    have hpv : validPort p = false := by
      rcases h with h | h
      · rw [hv] at h
        exact Bool.noConfusion h
      · exact h
    exact ⟨⟨NErr.invalidPort p, by simp [createProxyConfig, hv, hpv]⟩,
      by simp [createProxyConfig, hv, hpv], by simp [createProxyConfig, hv, hpv]⟩

theorem c9_witness :
    (∃ e, (createProxyConfig (some []) (str "Has_Upper") 3003 true true).res =
      Except.error e) ∧
    (createProxyConfig (some []) (str "Has_Upper") 3003 true true).fs = some [] ∧
    (createProxyConfig (some []) (str "Has_Upper") 3003 true true).events = [] :=
  c9_invalid_input_rejected_before_fs (some []) (str "Has_Upper") 3003 true true
    (Or.inl (by decide))

/-- C10: listing proxy configs when the config directory does not exist
returns the empty list instead of raising. -/
theorem c10_list_missing_dir_empty : listProxyConfigs none = [] := rfl

end Orchestrator
